import Mathlib

/-!
A shallow embedding of the arc-export conversion pipeline (src/main.py).

The pipeline reads a sidebar JSON document, locates a target container,
resolves spaces into pinned and unpinned identifier-to-title maps,
rebuilds a bookmark forest from the flat parent-linked item records, and
renders the forest in the Netscape bookmark HTML grammar.

Modelling conventions:
- Python dicts whose iteration order matters are association lists with
  insertion-order update semantics (CPython since 3.7 guarantees that a
  dict iterates in insertion order, first occurrence of a key fixing its
  position and later writes only updating the value).
- Python exceptions are Except String; messages follow the source.
- JSON records are structures holding exactly the fields the code reads;
  a field that may be missing is an Option.  A key that is present with a
  null value is identified with a missing key on the string-valued fields
  the code reads, since the code treats both the same way on the paths
  modelled here.
- The recursive tree builder recurses through an arbitrary index of
  items, so the Lean version carries an explicit fuel argument.  The top
  level call receives fuel strictly larger than any acyclic parent chain
  (one more than the number of indexed items), so the model agrees with
  the Python source on every input on which the Python terminates; on a
  cyclic input the Python recurses without bound while the model cuts the
  cycle off when the fuel runs out.
-/

namespace ArcExport

/-- A tab payload record: the fields read from item.data.tab. -/
structure TabRec where
  savedTitle : Option String
  savedURL : Option String
deriving DecidableEq

/-- The item.data record; the code only tests for and reads the tab key. -/
structure ItemData where
  tab : Option TabRec
deriving DecidableEq

/-- An item record: the fields of a dict-shaped entry of the items list
that the code reads. -/
structure Item where
  id : Option String
  parentID : Option String
  title : Option String
  data : Option ItemData
deriving DecidableEq

/-- An entry of the items list: either a dict-shaped record or any other
JSON value, which the index construction skips. -/
inductive Entry
  | dict (item : Item)
  | other
deriving DecidableEq

/-- An entry of a space.newContainerIDs list: a dict (with or without the
pinned and unpinned marker keys) or a non-dict value.  asString is the
str() rendering of the entry, used when it is consumed as an identifier. -/
inductive CEntry
  | dict (hasPinned hasUnpinned : Bool) (asString : String)
  | nondict (asString : String)
deriving DecidableEq

/-- The str() rendering of a newContainerIDs entry. -/
def CEntry.asStr : CEntry → String
  | .dict _ _ s => s
  | .nondict s => s

/-- A dict-shaped space record: the fields the code reads. -/
structure SpaceRec where
  title : Option String
  newContainerIDs : Option (List CEntry)
deriving DecidableEq

/-- An entry of the spaces list.  A non-dict entry only records whether
the membership test for the title key succeeds on it; when it does, the
subscript access in the source raises a TypeError. -/
inductive SpaceEntry
  | dict (s : SpaceRec)
  | nondict (hasTitle : Bool)
deriving DecidableEq

/-- The result of get_spaces: pinned and unpinned identifier-to-title
maps, as insertion-ordered association lists. -/
structure SpacesNames where
  pinned : List (String × String)
  unpinned : List (String × String)
deriving DecidableEq

/-- A container entry of sidebar.containers: whether the membership test
for the global key succeeds on it, and its spaces and items fields when
present. -/
structure Container where
  hasGlobal : Bool
  spaces : Option (List SpaceEntry)
  items : Option (List Entry)
deriving DecidableEq

/-- The sidebar document (the sidebar.containers list). -/
structure SidebarDoc where
  containers : List Container
deriving DecidableEq

/-- A node of the intermediate bookmark forest built by
convert_to_bookmarks: a folder dict or a bookmark dict. -/
inductive BNode
  | folder (title : String) (children : List BNode)
  | bookmark (title url : String)

/-- The top-level dict returned by convert_to_bookmarks. -/
structure Bookmarks where
  bookmarks : List BNode

/-- Insertion-ordered update of an association list, the write semantics
of a CPython dict: an existing key keeps its position and gets the new
value, a new key is appended. -/
def insertAssoc {α : Type} (d : List (String × α)) (k : String) (v : α) :
    List (String × α) :=
  if d.any (fun p => p.1 == k) then
    d.map (fun p => if p.1 == k then (k, v) else p)
  else
    d ++ [(k, v)]

/-- Record a pinned space root identifier under the given title. -/
def recordPinned (m : SpacesNames) (k t : String) : SpacesNames :=
  { m with pinned := insertAssoc m.pinned k t }

/-- Record an unpinned space root identifier under the given title. -/
def recordUnpinned (m : SpacesNames) (k t : String) : SpacesNames :=
  { m with unpinned := insertAssoc m.unpinned k t }

/-- The inner loop of get_spaces over one newContainerIDs list (src lines
373 to 378).  The loop inspects the entry at each index; a dict entry
holding a pinned (or, failing that, an unpinned) marker key makes the
loop read the entry at the next index, whose str() rendering becomes the
recorded identifier.  A marker at the last index makes the next-index
access raise an IndexError. -/
def processCIDs (title : String) : List CEntry → SpacesNames → Except String SpacesNames
  | [], maps => .ok maps
  | .dict hp hu _ :: rest, maps =>
    if hp then
      match rest with
      | [] => .error "IndexError: list index out of range"
      | nxt :: _ => processCIDs title rest (recordPinned maps nxt.asStr title)
    else if hu then
      match rest with
      | [] => .error "IndexError: list index out of range"
      | nxt :: _ => processCIDs title rest (recordUnpinned maps nxt.asStr title)
    else
      processCIDs title rest maps
  | .nondict _ :: rest, maps => processCIDs title rest maps

/-- The title computation at the head of the get_spaces loop body (src
lines 363 to 367): an explicit title is kept, otherwise the generated
title Space n is used and the running counter advances.  A non-dict
space on which the membership test for the title key succeeds raises a
TypeError at the subscript access. -/
def spaceTitleStep : SpaceEntry → Nat → Except String (String × Nat)
  | .dict s, n =>
    match s.title with
    | some t => .ok (t, n)
    | none => .ok ("Space " ++ toString n, n + 1)
  | .nondict true, _ => .error "TypeError: space entry is not subscriptable"
  | .nondict false, n => .ok ("Space " ++ toString n, n + 1)

/-- The get_spaces loop (src lines 362 to 380), carrying the untitled
counter n and the accumulated maps. -/
def getSpacesAux : List SpaceEntry → Nat → SpacesNames → Except String SpacesNames
  | [], _, maps => .ok maps
  | e :: rest, n, maps =>
    match spaceTitleStep e n with
    | .error msg => .error msg
    | .ok (title, n2) =>
      match e with
      | .dict s =>
        match s.newContainerIDs with
        | none => .error "KeyError: newContainerIDs"
        | some l =>
          match processCIDs title l maps with
          | .error msg => .error msg
          | .ok maps2 => getSpacesAux rest n2 maps2
      | .nondict _ => getSpacesAux rest n2 maps

/-- get_spaces (src lines 355 to 384): resolve the spaces list into the
pinned and unpinned identifier-to-title maps. -/
def get_spaces (spaces : List SpaceEntry) : Except String SpacesNames :=
  getSpacesAux spaces 1 { pinned := [], unpinned := [] }

/-- The dict comprehension of convert_to_bookmarks (src line 392): index
the dict-shaped items by their id field, skipping non-dict entries; a
dict entry without an id raises a KeyError. -/
def buildItemDict : List Entry → List (String × Item) → Except String (List (String × Item))
  | [], acc => .ok acc
  | .other :: rest, acc => buildItemDict rest acc
  | .dict item :: rest, acc =>
    match item.id with
    | none => .error "KeyError: id"
    | some i => buildItemDict rest (insertAssoc acc i item)

/-- The condition of the bookmark branch (src line 399): the item has a
data field whose value contains a tab record. -/
def Item.dataTab (item : Item) : Option TabRec :=
  item.data.bind ItemData.tab

/-- The title of an emitted bookmark (src lines 402 to 403): the Python
expression item.get(title, None) or item.data.tab.get(savedTitle, where
a present but empty item title is falsy and falls through. -/
def bookmarkTitle (item : Item) (tab : TabRec) : String :=
  match item.title with
  | some t => if t = "" then tab.savedTitle.getD "" else t
  | none => tab.savedTitle.getD ""

/-- The loop body of recurse_into_children (src lines 397 to 415) for
one index entry, parameterized by the recursive call: an item whose
parentID equals the argument is emitted as a bookmark node (tab payload
present), or as a folder node with recursively collected children (title
present), or not at all; any other item contributes nothing. -/
def recurseBody (rec : String → List BNode) (parent_id : String)
    (e : String × Item) : List BNode :=
  if e.2.parentID = some parent_id then
    match e.2.dataTab with
    | some tab => [BNode.bookmark (bookmarkTitle e.2 tab) (tab.savedURL.getD "")]
    | none =>
      match e.2.title with
      | some t => [BNode.folder t (rec e.1)]
      | none => []
  else []

/-- recurse_into_children (src lines 394 to 416), with an explicit fuel
argument standing for the call stack: scan the whole item index in
order and collect the contribution of each entry. -/
def recurse_into_children (d : List (String × Item)) : Nat → String → List BNode
  | 0, _ => []
  | fuel + 1, parent_id =>
    d.flatMap (recurseBody (recurse_into_children d fuel) parent_id)

/-- The top-level loop of convert_to_bookmarks (src lines 418 to 424):
one folder per pinned space, in the pinned map iteration order. -/
def buildSpaceFolders (pinned : List (String × String)) (d : List (String × Item))
    (fuel : Nat) : List BNode :=
  pinned.map fun sn => BNode.folder sn.2 (recurse_into_children d fuel sn.1)

/-- convert_to_bookmarks (src lines 387 to 428). -/
def convert_to_bookmarks (spaces : SpacesNames) (items : List Entry) :
    Except String Bookmarks :=
  match buildItemDict items [] with
  | .error msg => .error msg
  | .ok d => .ok { bookmarks := buildSpaceFolders spaces.pinned d (d.length + 1) }

/-- The indentation string: one tab character per nesting level. -/
def tabIndent (level : Nat) : String :=
  String.join (List.replicate level "\t")

/-- The fixed Netscape bookmark file header (src lines 434 to 438). -/
def bookmarkHeader : String :=
  "<!DOCTYPE NETSCAPE-Bookmark-file-1>\n<META HTTP-EQUIV=\x22Content-Type\x22 CONTENT=\x22text/html; charset=UTF-8\x22>\n<TITLE>Bookmarks</TITLE>\n<H1>Bookmarks</H1>\n<DL><p>"

/-- traverse_dict (src lines 440 to 450): sequentially append the
rendering of each node to the accumulated string, folders recursively at
the next level. -/
def traverse_dict : List BNode → String → Nat → String
  | [], html_str, _ => html_str
  | BNode.folder title children :: rest, html_str, level =>
    let indent := tabIndent level
    let s1 := html_str ++ "\n" ++ indent ++ "<DT><H3>" ++ title ++ "</H3>"
    let s2 := s1 ++ "\n" ++ indent ++ "<DL><p>"
    let s3 := traverse_dict children s2 (level + 1)
    traverse_dict rest (s3 ++ "\n" ++ indent ++ "</DL><p>") level
  | BNode.bookmark title url :: rest, html_str, level =>
    let indent := tabIndent level
    traverse_dict rest
      (html_str ++ "\n" ++ indent ++ "<DT><A HREF=\x22" ++ url ++ "\x22>" ++ title ++ "</A>")
      level

/-- convert_bookmarks_to_html (src lines 431 to 457): header, traversal
from level 1, and the closing tag. -/
def convert_bookmarks_to_html (bm : Bookmarks) : String :=
  traverse_dict bm.bookmarks bookmarkHeader 1 ++ "\n</DL><p>"

/-- The generator expression next(i + 1 for i, c in enumerate(containers)
if the global key is in c) (src line 342): one past the index of the
first container on which the membership test for the global key
succeeds. -/
def findGlobal : List Container → Nat → Option Nat
  | [], _ => none
  | c :: rest, i => if c.hasGlobal then some (i + 1) else findGlobal rest (i + 1)

/-- The tail of convert_json_to_html once the target container is in
hand (src lines 346 to 352): read its spaces field, resolve the spaces,
read its items field, build the forest, render it. -/
def processContainer (cont : Container) : Except String String :=
  match cont.spaces with
  | none => .error "KeyError: spaces"
  | some sp =>
    match get_spaces sp with
    | .error msg => .error msg
    | .ok spaces =>
      match cont.items with
      | none => .error "KeyError: items"
      | some its =>
        match convert_to_bookmarks spaces its with
        | .error msg => .error msg
        | .ok bm => .ok (convert_bookmarks_to_html bm)

/-- convert_json_to_html (src lines 339 to 352). -/
def convert_json_to_html (doc : SidebarDoc) : Except String String :=
  match findGlobal doc.containers 0 with
  | none => .error "No container with \x27global\x27 found in the sidebar data"
  | some target =>
    match doc.containers[target]? with
    | none => .error "IndexError: list index out of range"
    | some cont => processContainer cont

/-- The write step of main (src lines 109 to 112): write_html runs only
when convert_json_to_html returns normally, and then writes exactly the
returned text; any exception propagates and nothing is written. -/
def pipeline_writes (doc : SidebarDoc) : Option String :=
  match convert_json_to_html doc with
  | .ok html => some html
  | .error _ => none

/-! ## Definitions written from the claim text, for refinement comparison -/

/-- The bookmark title fallback as the claim words it: the item title when
present and non-empty, else the saved title of the tab when present, else
the empty string. -/
def specBookmarkTitle (item : Item) (tab : TabRec) : String :=
  match item.title with
  | some t => if t ≠ "" then t else
      match tab.savedTitle with
      | some st => st
      | none => ""
  | none =>
    match tab.savedTitle with
    | some st => st
    | none => ""

/-- The bookmark URL fallback as the claim words it: the saved URL of the
tab when present, else the empty string. -/
def specBookmarkUrl (tab : TabRec) : String :=
  match tab.savedURL with
  | some u => u
  | none => ""

/-- A marker entry of a newContainerIDs list: a dict holding a pinned or
an unpinned key. -/
def isMarker : CEntry → Bool
  | .dict hp hu _ => hp || hu
  | .nondict _ => false

/-! ## Helper lemmas -/

lemma findGlobal_none (l : List Container) (k : Nat)
    (h : ∀ c ∈ l, c.hasGlobal = false) : findGlobal l k = none := by
  induction l generalizing k with
  | nil => rfl
  | cons c rest ih =>
    have hc := h c (by simp)
    simp only [findGlobal, hc, if_false, Bool.false_eq_true]
    exact ih (k + 1) fun x hx => h x (by simp [hx])

lemma recurse_no_children (d : List (String × Item)) (sid : String)
    (h : ∀ e ∈ d, e.2.parentID ≠ some sid) :
    ∀ fuel, recurse_into_children d fuel sid = [] := by
  intro fuel
  cases fuel with
  | zero => rfl
  | succ n =>
    simp only [recurse_into_children]
    rw [List.flatMap_eq_nil_iff]
    intro e he
    simp [recurseBody, h e he]

lemma processCIDs_last_marker (l : List CEntry) (c : CEntry)
    (hlast : l.getLast? = some c) (hm : isMarker c = true) :
    ∀ (title : String) (maps : SpacesNames),
      ∃ msg, processCIDs title l maps = .error msg := by
  induction l with
  | nil => simp at hlast
  | cons x rest ih =>
    intro title maps
    cases rest with
    | nil =>
      have hx : x = c := by simpa using hlast
      subst hx
      cases x with
      | nondict s => simp [isMarker] at hm
      | dict hp hu s =>
        cases hp with
        | true => exact ⟨"IndexError: list index out of range", by simp [processCIDs]⟩
        | false =>
          cases hu with
          | true => exact ⟨"IndexError: list index out of range", by simp [processCIDs]⟩
          | false => simp [isMarker] at hm
    | cons y rest2 =>
      have hlast2 : (y :: rest2).getLast? = some c := by
        rwa [List.getLast?_cons_cons] at hlast
      cases x with
      | nondict s => simpa [processCIDs] using ih hlast2 title maps
      | dict hp hu s =>
        cases hp with
        | true => simpa [processCIDs] using ih hlast2 title _
        | false =>
          cases hu with
          | true => simpa [processCIDs] using ih hlast2 title _
          | false => simpa [processCIDs] using ih hlast2 title maps

lemma getSpacesAux_error_of_space (spaces : List SpaceEntry) (s : SpaceRec)
    (l : List CEntry)
    (hmem : SpaceEntry.dict s ∈ spaces) (hcid : s.newContainerIDs = some l)
    (hbad : ∀ title maps, ∃ msg, processCIDs title l maps = .error msg) :
    ∀ n maps, ∃ msg, getSpacesAux spaces n maps = .error msg := by
  induction spaces with
  | nil => simp at hmem
  | cons e rest ih =>
    intro n maps
    rcases List.mem_cons.1 hmem with he | he
    · subst he
      cases hst : s.title with
      | some t =>
        obtain ⟨msg, hmsg⟩ := hbad t maps
        exact ⟨msg, by simp [getSpacesAux, spaceTitleStep, hst, hcid, hmsg]⟩
      | none =>
        obtain ⟨msg, hmsg⟩ := hbad ("Space " ++ toString n) maps
        exact ⟨msg, by simp [getSpacesAux, spaceTitleStep, hst, hcid, hmsg]⟩
    · cases hstep : spaceTitleStep e n with
      | error msg => exact ⟨msg, by simp [getSpacesAux, hstep]⟩
      | ok tn =>
        obtain ⟨t, n2⟩ := tn
        cases e with
        | nondict b => simpa [getSpacesAux, hstep] using ih he n2 maps
        | dict s2 =>
          cases hcid2 : s2.newContainerIDs with
          | none =>
            exact ⟨"KeyError: newContainerIDs", by simp [getSpacesAux, hstep, hcid2]⟩
          | some l2 =>
            cases hrun : processCIDs t l2 maps with
            | error msg => exact ⟨msg, by simp [getSpacesAux, hstep, hcid2, hrun]⟩
            | ok maps2 =>
              simpa [getSpacesAux, hstep, hcid2, hrun] using ih he n2 maps2

/-! ## Claims -/

/-- C2 (confirmed): when no container holds the global marker, the
conversion fails with the schema ValueError of the source, the write step
is never reached, and in general nothing at all is written on any error
path of the pipeline. -/
theorem c2_no_global_error (doc : SidebarDoc)
    (h : ∀ c ∈ doc.containers, c.hasGlobal = false) :
    convert_json_to_html doc =
        .error "No container with \x27global\x27 found in the sidebar data"
      ∧ pipeline_writes doc = none
      ∧ ∀ (d : SidebarDoc) (msg : String),
          convert_json_to_html d = .error msg → pipeline_writes d = none := by
  have hf := findGlobal_none doc.containers 0 h
  refine ⟨?_, ?_, ?_⟩
  · simp [convert_json_to_html, hf]
  · simp [pipeline_writes, convert_json_to_html, hf]
  · intro d msg hd
    simp [pipeline_writes, hd]

/-- Witness for C2 at a concrete one-container document with no global
marker. -/
theorem c2_witness :
    convert_json_to_html ⟨[⟨false, none, none⟩]⟩ =
        .error "No container with \x27global\x27 found in the sidebar data"
      ∧ pipeline_writes ⟨[⟨false, none, none⟩]⟩ = none := by
  have h := c2_no_global_error ⟨[⟨false, none, none⟩]⟩ (by decide)
  exact ⟨h.1, h.2.1⟩

/-- C3 (confirmed): an item whose payload holds a tab record is emitted
as a bookmark node whose title and URL follow the fallback order stated
by the claim: item title when present and non-empty, else saved title,
else empty; saved URL, else empty. -/
theorem c3_bookmark_fallback (d : List (String × Item)) (fuel : Nat)
    (p item_id : String) (item : Item) (tab : TabRec)
    (hmem : (item_id, item) ∈ d) (hpar : item.parentID = some p)
    (htab : item.dataTab = some tab) :
    BNode.bookmark (specBookmarkTitle item tab) (specBookmarkUrl tab)
      ∈ recurse_into_children d (fuel + 1) p := by
  simp only [recurse_into_children]
  rw [List.mem_flatMap]
  refine ⟨(item_id, item), hmem, ?_⟩
  simp only [recurseBody, hpar, htab, if_pos rfl]
  have hts : bookmarkTitle item tab = specBookmarkTitle item tab := by
    unfold bookmarkTitle specBookmarkTitle
    cases item.title with
    | none => cases tab.savedTitle <;> rfl
    | some t =>
      by_cases ht : t = ""
      · simp [ht]; cases tab.savedTitle <;> rfl
      · simp [ht]
  have hus : tab.savedURL.getD "" = specBookmarkUrl tab := by
    unfold specBookmarkUrl; cases tab.savedURL <;> rfl
  simp [hts, hus]

/-- Witness for C3 at a one-item index holding a tab with a saved title
and URL and an item with an empty own title. -/
theorem c3_witness :
    BNode.bookmark
        (specBookmarkTitle ⟨some "y", some "p", some "", some ⟨some ⟨some "T", some "U"⟩⟩⟩
          ⟨some "T", some "U"⟩)
        (specBookmarkUrl ⟨some "T", some "U"⟩)
      ∈ recurse_into_children
          [("y", ⟨some "y", some "p", some "", some ⟨some ⟨some "T", some "U"⟩⟩⟩)] 1 "p" :=
  c3_bookmark_fallback _ 0 "p" "y" _ _ (by simp) rfl rfl

/-- C6 (confirmed): a pinned space whose root identifier matches no item
parent identifier still yields a folder titled with the space title and
holding an empty children list, with no error. -/
theorem c6_empty_space_folder (spaces : SpacesNames) (items : List Entry)
    (d : List (String × Item)) (sid name : String)
    (hmem : (sid, name) ∈ spaces.pinned)
    (hd : buildItemDict items [] = .ok d)
    (hnone : ∀ e ∈ d, e.2.parentID ≠ some sid) :
    ∃ bm, convert_to_bookmarks spaces items = .ok bm
      ∧ BNode.folder name [] ∈ bm.bookmarks := by
  refine ⟨⟨buildSpaceFolders spaces.pinned d (d.length + 1)⟩, ?_, ?_⟩
  · simp [convert_to_bookmarks, hd]
  · simp only [buildSpaceFolders]
    rw [List.mem_map]
    exact ⟨(sid, name), hmem, by
      rw [recurse_no_children d sid hnone]⟩

/-- Witness for C6: one pinned space, an item list whose only item hangs
elsewhere. -/
theorem c6_witness :
    ∃ bm, convert_to_bookmarks ⟨[("r", "S")], []⟩
        [Entry.dict ⟨some "a", some "w", some "A", none⟩] = .ok bm
      ∧ BNode.folder "S" [] ∈ bm.bookmarks :=
  c6_empty_space_folder ⟨[("r", "S")], []⟩ _
    [("a", ⟨some "a", some "w", some "A", none⟩)] "r" "S" (by simp) rfl (by decide)

/-- C7 (confirmed): a space whose sub-entry list carries a pinned or
unpinned marker at its last index makes get_spaces fail with the
out-of-range error instead of recording a mapping or skipping the
marker. -/
theorem c7_marker_at_end_error (spaces : List SpaceEntry) (s : SpaceRec)
    (l : List CEntry) (c : CEntry)
    (hmem : SpaceEntry.dict s ∈ spaces) (hcid : s.newContainerIDs = some l)
    (hlast : l.getLast? = some c) (hm : isMarker c = true) :
    ∃ msg, get_spaces spaces = .error msg :=
  getSpacesAux_error_of_space spaces s l hmem hcid
    (processCIDs_last_marker l c hlast hm) 1 ⟨[], []⟩

/-- Witness for C7: a single space whose sub-entry list ends in a pinned
marker. -/
theorem c7_witness :
    ∃ msg, get_spaces [SpaceEntry.dict ⟨some "W", some [CEntry.dict true false "m"]⟩]
      = .error msg :=
  c7_marker_at_end_error _ ⟨some "W", some [CEntry.dict true false "m"]⟩
    [CEntry.dict true false "m"] (CEntry.dict true false "m")
    (by simp) rfl rfl rfl

/-- C10 (confirmed): a dict-shaped items entry without an id key makes
the index construction fail with a key-lookup error, while a non-dict
entry is skipped with no effect and no error. -/
theorem c10_item_index_errors :
    (∀ (e1 e2 : List Entry) (item : Item) (acc : List (String × Item)),
        item.id = none →
        ∃ msg, buildItemDict (e1 ++ Entry.dict item :: e2) acc = .error msg)
    ∧ ∀ (e1 e2 : List Entry) (acc : List (String × Item)),
        buildItemDict (e1 ++ Entry.other :: e2) acc = buildItemDict (e1 ++ e2) acc := by
  constructor
  · intro e1
    induction e1 with
    | nil =>
      intro e2 item acc h
      exact ⟨"KeyError: id", by simp [buildItemDict, h]⟩
    | cons e rest ih =>
      intro e2 item acc h
      cases e with
      | other => simpa [buildItemDict] using ih e2 item acc h
      | dict it =>
        cases hid : it.id with
        | none => exact ⟨"KeyError: id", by simp [buildItemDict, hid]⟩
        | some i => simpa [buildItemDict, hid] using ih e2 item _ h
  · intro e1
    induction e1 with
    | nil => intro e2 acc; simp [buildItemDict]
    | cons e rest ih =>
      intro e2 acc
      cases e with
      | other => simpa [buildItemDict] using ih e2 acc
      | dict it =>
        cases hid : it.id with
        | none => simp [buildItemDict, hid]
        | some i => simpa [buildItemDict, hid] using ih e2 _

/-- Witness for C10: a one-entry list whose dict item lacks an id, and a
one-entry list holding a non-dict value. -/
theorem c10_witness :
    (∃ msg, buildItemDict [Entry.dict ⟨none, none, some "A", none⟩] [] = .error msg)
      ∧ buildItemDict [Entry.other] [] = buildItemDict [] [] :=
  ⟨c10_item_index_errors.1 [] [] ⟨none, none, some "A", none⟩ [] rfl,
    c10_item_index_errors.2 [] [] []⟩

/-! ## C4: the serializer against the grammar of the claim -/

mutual

/-- The rendering of one node as the claim words it: a folder opens a
DT H3 line and a DL p line, recursively serializes its children one
level deeper, and closes with a DL p line; a bookmark is one DT A line;
each line is indented with one tab per level and titles and URLs are
copied verbatim. -/
def nodeHtml : BNode → Nat → String
  | .folder t ch, level =>
    "\n" ++ tabIndent level ++ "<DT><H3>" ++ t ++ "</H3>" ++
      "\n" ++ tabIndent level ++ "<DL><p>" ++
      forestHtml ch (level + 1) ++
      "\n" ++ tabIndent level ++ "</DL><p>"
  | .bookmark t u, level =>
    "\n" ++ tabIndent level ++ "<DT><A HREF=\x22" ++ u ++ "\x22>" ++ t ++ "</A>"

/-- The depth-first rendering of a forest at one level. -/
def forestHtml : List BNode → Nat → String
  | [], _ => ""
  | x :: rest, level => nodeHtml x level ++ forestHtml rest level

end

/-- The whole document as the claim words it: the fixed header, the
forest from level 1, the trailing closing tag. -/
def serializeSpec (forest : List BNode) : String :=
  bookmarkHeader ++ forestHtml forest 1 ++ "\n</DL><p>"

lemma traverse_dict_eq (d : List BNode) (s : String) (lvl : Nat) :
    traverse_dict d s lvl = s ++ forestHtml d lvl := by
  induction d, s, lvl using traverse_dict.induct with
  | case1 s lvl => simp [traverse_dict, forestHtml, String.append_empty]
  | case2 title children rest s lvl ind s1 s2 s3 ihc ihc2 ihr =>
    unfold s3 s2 s1 ind at ihr
    simp only [traverse_dict, forestHtml, nodeHtml]
    rw [ihr, ihc2]
    simp [String.append_assoc]
  | case3 title url rest s lvl ind ihr =>
    unfold ind at ihr
    simp only [traverse_dict, forestHtml, nodeHtml]
    rw [ihr]
    simp [String.append_assoc]

/-- C4 (confirmed): the emitted document is exactly the fixed Netscape
header followed by the depth-first rendering of the forest from nesting
level 1, one tab per level, folders as a DT H3 line, a DL p line, their
children one level deeper and a closing DL p line, bookmarks as one DT A
line, titles and URLs verbatim, and the final closing DL p tag. -/
theorem c4_serializer_grammar (bm : Bookmarks) :
    convert_bookmarks_to_html bm = serializeSpec bm.bookmarks := by
  unfold convert_bookmarks_to_html serializeSpec
  rw [traverse_dict_eq]

/-! ## C8: the untitled-space numbering -/

/-- The effective titles the get_spaces loop computes, one slot per
space in order, threading the untitled counter exactly as the loop body
does.  A non-dict entry on which the title membership test succeeds makes
the loop raise before its title is ever used; its slot carries the empty
string and leaves the counter unchanged. -/
def titlesAux : List SpaceEntry → Nat → List String
  | [], _ => []
  | .dict s :: rest, n =>
    match s.title with
    | some t => t :: titlesAux rest n
    | none => ("Space " ++ toString n) :: titlesAux rest (n + 1)
  | .nondict true :: rest, n => "" :: titlesAux rest n
  | .nondict false :: rest, n => ("Space " ++ toString n) :: titlesAux rest (n + 1)

/-- The effective titles of a spaces list, with the counter starting at
1 as in get_spaces. -/
def spaceTitles (spaces : List SpaceEntry) : List String :=
  titlesAux spaces 1

/-- The entries that advance the untitled counter: those on which the
title membership test fails. -/
def untitledB : SpaceEntry → Bool
  | .dict s => s.title.isNone
  | .nondict ht => !ht

/-- The closed form of the claim for the title of the space at index j
when the counter starts at n: an explicit title is kept; an untitled
space gets Space N with N equal to n plus the number of untitled spaces
strictly before it in document order.  The formula never looks at the
sub-entry lists, so the numbering is independent of the pinned and
unpinned classification. -/
def titleFormula (spaces : List SpaceEntry) (n j : Nat) : SpaceEntry → String :=
  fun e =>
    match e with
    | .dict s =>
      match s.title with
      | some t => t
      | none => "Space " ++ toString (n + ((spaces.take j).filter untitledB).length)
    | .nondict true => ""
    | .nondict false => "Space " ++ toString (n + ((spaces.take j).filter untitledB).length)

/-- The recording work of the get_spaces loop with the effective titles
pre-assigned from outside. -/
def getSpacesWithTitles : List (SpaceEntry × String) → SpacesNames → Except String SpacesNames
  | [], maps => .ok maps
  | (.dict s, t) :: rest, maps =>
    match s.newContainerIDs with
    | none => .error "KeyError: newContainerIDs"
    | some l =>
      match processCIDs t l maps with
      | .error msg => .error msg
      | .ok maps2 => getSpacesWithTitles rest maps2
  | (.nondict true, _) :: _, _ => .error "TypeError: space entry is not subscriptable"
  | (.nondict false, _) :: rest, maps => getSpacesWithTitles rest maps

lemma titleFormula_shift (e : SpaceEntry) (rest : List SpaceEntry) (n j2 : Nat) :
    titleFormula (e :: rest) n (j2 + 1)
      = titleFormula rest (if untitledB e then n + 1 else n) j2 := by
  funext e2
  have hcount : (((e :: rest).take (j2 + 1)).filter untitledB).length
      = (if untitledB e then 1 else 0) + ((rest.take j2).filter untitledB).length := by
    rw [List.take_succ_cons, List.filter_cons]
    by_cases hb : untitledB e = true
    · simp [hb]
      omega
    · simp [hb]
  have harith : ∀ c : Nat, n + ((if untitledB e then 1 else 0) + c)
      = (if untitledB e then n + 1 else n) + c := by
    intro c
    by_cases hb : untitledB e = true
    · simp [hb]
      omega
    · simp [hb]
  cases e2 with
  | dict s =>
    cases hst : s.title with
    | some t => simp [titleFormula, hst]
    | none => simp only [titleFormula, hst, hcount, harith]
  | nondict b =>
    cases b with
    | true => simp [titleFormula]
    | false => simp only [titleFormula, hcount, harith]

lemma titlesAux_get? (spaces : List SpaceEntry) :
    ∀ (n j : Nat),
      (titlesAux spaces n)[j]? = (spaces[j]?).map (titleFormula spaces n j) := by
  induction spaces with
  | nil => intro n j; simp [titlesAux]
  | cons e rest ih =>
    intro n j
    cases j with
    | zero =>
      cases e with
      | dict s =>
        cases hst : s.title <;> simp [titlesAux, hst, titleFormula]
      | nondict b => cases b <;> simp [titlesAux, titleFormula]
    | succ j2 =>
      have htail : (titlesAux (e :: rest) n)[j2 + 1]?
          = (titlesAux rest (if untitledB e then n + 1 else n))[j2]? := by
        cases e with
        | dict s => cases hst : s.title <;> simp [titlesAux, hst, untitledB]
        | nondict b => cases b <;> simp [titlesAux, untitledB]
      rw [htail, ih, List.getElem?_cons_succ, titleFormula_shift]

lemma getSpacesAux_eq_withTitles (spaces : List SpaceEntry) :
    ∀ (n : Nat) (maps : SpacesNames),
      getSpacesAux spaces n maps
        = getSpacesWithTitles (spaces.zip (titlesAux spaces n)) maps := by
  induction spaces with
  | nil => intro n maps; rfl
  | cons e rest ih =>
    intro n maps
    cases e with
    | dict s =>
      cases hst : s.title with
      | some t =>
        cases hcid : s.newContainerIDs with
        | none =>
          simp [getSpacesAux, spaceTitleStep, hst, titlesAux, hcid, getSpacesWithTitles]
        | some l =>
          cases hrun : processCIDs t l maps with
          | error msg =>
            simp [getSpacesAux, spaceTitleStep, hst, titlesAux, hcid, hrun,
              getSpacesWithTitles]
          | ok maps2 =>
            simp only [getSpacesAux, spaceTitleStep, hst, titlesAux, hcid, hrun,
              List.zip_cons_cons, getSpacesWithTitles]
            exact ih n maps2
      | none =>
        cases hcid : s.newContainerIDs with
        | none =>
          simp [getSpacesAux, spaceTitleStep, hst, titlesAux, hcid, getSpacesWithTitles]
        | some l =>
          cases hrun : processCIDs ("Space " ++ toString n) l maps with
          | error msg =>
            simp [getSpacesAux, spaceTitleStep, hst, titlesAux, hcid, hrun,
              getSpacesWithTitles]
          | ok maps2 =>
            simp only [getSpacesAux, spaceTitleStep, hst, titlesAux, hcid, hrun,
              List.zip_cons_cons, getSpacesWithTitles]
            exact ih (n + 1) maps2
    | nondict b =>
      cases b with
      | true => simp [getSpacesAux, spaceTitleStep, titlesAux, getSpacesWithTitles]
      | false =>
        simp only [getSpacesAux, spaceTitleStep, titlesAux, List.zip_cons_cons,
          getSpacesWithTitles]
        exact ih (n + 1) maps

/-- C8 (confirmed): every untitled space receives the generated title
Space N with N a 1-based counter advancing exactly once per untitled
space in document order, titled spaces keep their title and leave the
counter alone, and the numbering never looks at the pinned or unpinned
markers; get_spaces records exactly these effective titles. -/
theorem c8_space_numbering :
    (∀ (spaces : List SpaceEntry) (j : Nat),
        (spaceTitles spaces)[j]? = (spaces[j]?).map (titleFormula spaces 1 j))
    ∧ ∀ spaces : List SpaceEntry,
        get_spaces spaces
          = getSpacesWithTitles (spaces.zip (spaceTitles spaces)) ⟨[], []⟩ := by
  constructor
  · intro spaces j
    exact titlesAux_get? spaces 1 j
  · intro spaces
    exact getSpacesAux_eq_withTitles spaces 1 ⟨[], []⟩

/-! ## C1: which container the pipeline reads -/

lemma findGlobal_eq_some (l : List Container) :
    ∀ (k i : Nat) (ci : Container), l[i]? = some ci → ci.hasGlobal = true →
      (∀ (j : Nat) (cj : Container), j < i → l[j]? = some cj → cj.hasGlobal = false) →
      findGlobal l k = some (k + i + 1) := by
  induction l with
  | nil => intro k i ci h _ _; simp at h
  | cons c rest ih =>
    intro k i ci hci hg hbefore
    cases i with
    | zero =>
      have hc : c = ci := by simpa using hci
      subst hc
      simp [findGlobal, hg]
    | succ i2 =>
      have hc : c.hasGlobal = false := hbefore 0 c (Nat.succ_pos i2) (by simp)
      have hrec := ih (k + 1) i2 ci (by simpa using hci) hg
        (fun j cj hj hcj => hbefore (j + 1) cj (by omega) (by simpa using hcj))
      simp only [findGlobal, hc, Bool.false_eq_true, if_false, hrec]
      congr 1
      omega

/-- The container that holds the global marker in the counterexample
document; its own spaces and items would title the lone folder Zero. -/
def c1cont0 : Container :=
  ⟨true, some [SpaceEntry.dict ⟨some "Zero",
    some [CEntry.dict true false "m", CEntry.nondict "r0"]⟩], some []⟩

/-- The container one index past the global marker in the counterexample
document; its spaces title the lone folder One. -/
def c1cont1 : Container :=
  ⟨false, some [SpaceEntry.dict ⟨some "One",
    some [CEntry.dict true false "m", CEntry.nondict "r1"]⟩], some []⟩

set_option maxRecDepth 8192 in
/-- C1 counterexample: a two-container document whose first container
holds the global marker.  The pipeline output is built from the second
container, which holds no global marker, and differs from what the first
container would produce, so the pipeline does not read the spaces and
items of the container in which the global marker occurs. -/
theorem c1_counterexample :
    c1cont0.hasGlobal = true ∧ c1cont1.hasGlobal = false
      ∧ convert_json_to_html ⟨[c1cont0, c1cont1]⟩ = processContainer c1cont1
      ∧ processContainer c1cont0 ≠ processContainer c1cont1 := by
  refine ⟨rfl, rfl, rfl, ?_⟩
  intro h
  have h0 : processContainer c1cont0 = .ok (convert_bookmarks_to_html
      ⟨[BNode.folder "Zero" []]⟩) := rfl
  have h1 : processContainer c1cont1 = .ok (convert_bookmarks_to_html
      ⟨[BNode.folder "One" []]⟩) := rfl
  rw [h0, h1] at h
  have h2 : convert_bookmarks_to_html ⟨[BNode.folder "Zero" []]⟩
      = convert_bookmarks_to_html ⟨[BNode.folder "One" []]⟩ := by
    injection h
  simp only [convert_bookmarks_to_html, traverse_dict, tabIndent, bookmarkHeader] at h2
  have hj : String.join (List.replicate 1 "\t") = "\t" := rfl
  rw [hj] at h2
  exact absurd h2 (by decide)

/-- C1 (corrected): the pipeline reads the spaces and items of the
container at the index one past the first container holding the global
marker; when that index is out of range the lookup raises instead. -/
theorem c1_next_container (doc : SidebarDoc) (i : Nat) (ci : Container)
    (hci : doc.containers[i]? = some ci) (hg : ci.hasGlobal = true)
    (hbefore : ∀ (j : Nat) (cj : Container), j < i → doc.containers[j]? = some cj →
      cj.hasGlobal = false) :
    convert_json_to_html doc =
      match doc.containers[i + 1]? with
      | some cont => processContainer cont
      | none => .error "IndexError: list index out of range" := by
  have hf := findGlobal_eq_some doc.containers 0 i ci hci hg hbefore
  have hz : 0 + i + 1 = i + 1 := by omega
  rw [hz] at hf
  simp only [convert_json_to_html, hf]
  cases doc.containers[i + 1]? with
  | none => rfl
  | some cont => rfl

/-- Witness for the amended C1 at the counterexample document: the global
marker sits at index 0 and the pipeline processes the container at
index 1. -/
theorem c1_next_container_witness :
    convert_json_to_html ⟨[c1cont0, c1cont1]⟩ = processContainer c1cont1 := by
  have h := c1_next_container ⟨[c1cont0, c1cont1]⟩ 0 c1cont0 rfl rfl
    (fun j cj hj _ => absurd hj (Nat.not_lt_zero j))
  simpa using h

/-! ## C9: determinism and the origin of sibling order -/

/-- The key and value a dict-shaped entry with an id contributes to the
item index; other entries contribute nothing. -/
def entryKeyValue : Entry → Option (String × Item)
  | .dict item => item.id.map fun i => (i, item)
  | .other => none

lemma insertAssoc_fresh {α : Type} (d : List (String × α)) (k : String) (v : α)
    (h : ∀ e ∈ d, e.1 ≠ k) : insertAssoc d k v = d ++ [(k, v)] := by
  have hany : d.any (fun p => p.1 == k) = false := by
    rw [Bool.eq_false_iff]
    intro hc
    rw [List.any_eq_true] at hc
    obtain ⟨e, he, hbeq⟩ := hc
    exact h e he (by simpa using hbeq)
  simp [insertAssoc, hany]

lemma buildItemDict_ordered (entries : List Entry) :
    ∀ acc : List (String × Item),
      (∀ item, Entry.dict item ∈ entries → item.id.isSome) →
      ((acc ++ entries.filterMap entryKeyValue).map Prod.fst).Nodup →
      buildItemDict entries acc = .ok (acc ++ entries.filterMap entryKeyValue) := by
  induction entries with
  | nil => intro acc _ _; simp [buildItemDict]
  | cons e rest ih =>
    intro acc hall hnd
    cases e with
    | other =>
      have hfm : (Entry.other :: rest).filterMap entryKeyValue
          = rest.filterMap entryKeyValue := by
        simp [List.filterMap_cons, entryKeyValue]
      rw [hfm] at hnd
      rw [show buildItemDict (Entry.other :: rest) acc = buildItemDict rest acc from rfl]
      rw [ih acc (fun it hit => hall it (by simp [hit])) hnd, hfm]
    | dict item =>
      cases hid : item.id with
      | none =>
        have hsome := hall item (by simp)
        rw [hid] at hsome
        simp at hsome
      | some i =>
        have hfm : (Entry.dict item :: rest).filterMap entryKeyValue
            = (i, item) :: rest.filterMap entryKeyValue := by
          simp [List.filterMap_cons, entryKeyValue, hid]
        rw [hfm] at hnd
        have hfresh : ∀ e2 ∈ acc, e2.1 ≠ i := by
          intro e2 he2 heq
          rw [List.map_append] at hnd
          rcases List.nodup_append.1 hnd with ⟨_, _, hdisj⟩
          exact hdisj ((List.mem_map).2 ⟨e2, he2, heq⟩) (by simp)
        have hstep : buildItemDict (Entry.dict item :: rest) acc
            = buildItemDict rest (insertAssoc acc i item) := by
          simp [buildItemDict, hid]
        rw [hstep, insertAssoc_fresh acc i item hfresh]
        have hnd2 : (((acc ++ [(i, item)]) ++ rest.filterMap entryKeyValue).map
            Prod.fst).Nodup := by
          rw [List.append_assoc]
          simpa using hnd
        rw [ih (acc ++ [(i, item)]) (fun it hit => hall it (by simp [hit])) hnd2, hfm,
          List.append_assoc]
        rfl

/-- C9 counterexample: in the embedding the whole pipeline denotes a
function of the input document, mirroring that CPython dict iteration
order is itself a deterministic function of the insertion sequence, so
no input admits two runs of the pipeline with different outputs; the
negation of the claimed existence holds. -/
theorem c9_counterexample :
    ¬ ∃ (doc : SidebarDoc) (h1 h2 : String),
        convert_json_to_html doc = .ok h1 ∧ convert_json_to_html doc = .ok h2
          ∧ h1 ≠ h2 := by
  rintro ⟨doc, h1, h2, e1, e2, hne⟩
  rw [e1] at e2
  injection e2 with e3
  exact hne e3

/-- C9 (corrected): sibling order comes from the item index iteration
order, which is the insertion order of the index and hence a function of
the input: when the dict-shaped items carry pairwise distinct ids, the
index lists them exactly in input order, so a folder scans candidate
children in the order the source document lists them. -/
theorem c9_index_order (entries : List Entry)
    (hall : ∀ item, Entry.dict item ∈ entries → item.id.isSome)
    (hnd : ((entries.filterMap entryKeyValue).map Prod.fst).Nodup) :
    buildItemDict entries [] = .ok (entries.filterMap entryKeyValue) := by
  simpa using buildItemDict_ordered entries [] hall (by simpa using hnd)

/-- Witness for the amended C9 on a three-entry list: the index keeps
the two dict items in input order and skips the non-dict entry. -/
theorem c9_index_order_witness :
    buildItemDict [Entry.dict ⟨some "a", none, some "A", none⟩, Entry.other,
        Entry.dict ⟨some "b", some "a", none, some ⟨some ⟨none, some "u"⟩⟩⟩] []
      = .ok [("a", ⟨some "a", none, some "A", none⟩),
          ("b", ⟨some "b", some "a", none, some ⟨some ⟨none, some "u"⟩⟩⟩)] := by
  have h := c9_index_order
    [Entry.dict ⟨some "a", none, some "A", none⟩, Entry.other,
      Entry.dict ⟨some "b", some "a", none, some ⟨some ⟨none, some "u"⟩⟩⟩]
    (by
      intro item hit
      rcases List.mem_cons.1 hit with h1 | hit2
      · injection h1 with h2
        subst h2
        rfl
      rcases List.mem_cons.1 hit2 with h1 | hit3
      · exact Entry.noConfusion h1
      rcases List.mem_cons.1 hit3 with h1 | hit4
      · injection h1 with h2
        subst h2
        rfl
      · simp at hit4)
    (by decide)
  simpa [List.filterMap_cons, entryKeyValue] using h

/-! ## C5: dropped items and the cascading drop -/

/-- Whether following parent identifiers upward from y through the index
d reaches the identifier xid within the given number of steps. -/
def chainPassesThrough (d : List (String × Item)) (xid : String) : Nat → String → Bool
  | 0, _ => false
  | fuel + 1, y =>
    match d.lookup y with
    | none => false
    | some item =>
      match item.parentID with
      | none => false
      | some q => q == xid || chainPassesThrough d xid fuel q

lemma chainPassesThrough_mono (d : List (String × Item)) (xid : String) :
    ∀ (f : Nat) (y : String), chainPassesThrough d xid f y = true →
      chainPassesThrough d xid (f + 1) y = true := by
  intro f
  induction f with
  | zero => intro y h; simp [chainPassesThrough] at h
  | succ f2 ih =>
    intro y h
    rw [chainPassesThrough] at h
    rw [chainPassesThrough]
    cases hl : d.lookup y with
    | none =>
      rw [hl] at h
      simp at h
    | some item =>
      rw [hl] at h
      dsimp only at h
      dsimp only
      cases hp : item.parentID with
      | none =>
        rw [hp] at h
        simp at h
      | some q =>
        rw [hp] at h
        dsimp only at h
        dsimp only
        rcases (by simpa using h :
            q = xid ∨ chainPassesThrough d xid f2 q = true) with h1 | h2
        · simp [h1]
        · rw [ih q h2, Bool.or_true]

lemma lookup_of_mem_nodup (d : List (String × Item)) (k : String) (v : Item)
    (hnd : (d.map Prod.fst).Nodup) (hm : (k, v) ∈ d) : d.lookup k = some v := by
  induction d with
  | nil => simp at hm
  | cons e rest ih =>
    obtain ⟨e1, e2⟩ := e
    rcases List.mem_cons.1 hm with he | hm2
    · rw [← he]
      simp [List.lookup_cons]
    · have hk : k ∈ rest.map Prod.fst :=
        List.mem_map_of_mem Prod.fst hm2
      have hnd2 : e1 ∉ rest.map Prod.fst ∧ (rest.map Prod.fst).Nodup := by
        rw [List.map_cons, List.nodup_cons] at hnd
        exact hnd
      have hne : (k == e1) = false := by
        rw [beq_eq_false_iff_ne]
        intro hh
        exact hnd2.1 (hh ▸ hk)
      rw [List.lookup_cons]
      simp only [hne]
      exact ih hnd2.2 hm2

lemma mem_nodup_unique (d : List (String × Item)) (k : String) (v w : Item)
    (hnd : (d.map Prod.fst).Nodup) (hv : (k, v) ∈ d) (hw : (k, w) ∈ d) : v = w := by
  have h1 := lookup_of_mem_nodup d k v hnd hv
  have h2 := lookup_of_mem_nodup d k w hnd hw
  rw [h1] at h2
  injection h2

lemma flatMap_filter_of_nil {α β : Type} (l : List α) (g : α → Bool) (f : α → List β)
    (h : ∀ e ∈ l, g e = false → f e = []) :
    l.flatMap f = (l.filter g).flatMap f := by
  induction l with
  | nil => rfl
  | cons e rest ih =>
    rw [List.flatMap_cons, List.filter_cons]
    by_cases hg : g e = true
    · rw [if_pos hg, List.flatMap_cons,
        ih fun x hx hgx => h x (by simp [hx]) hgx]
    · rw [Bool.not_eq_true] at hg
      rw [h e (by simp) hg, List.nil_append, if_neg (by simp [hg]),
        ih fun x hx hgx => h x (by simp [hx]) hgx]

lemma recurse_filter_dropped (d : List (String × Item)) (S : String → Bool)
    (hclosed : ∀ id item, (id, item) ∈ d → S id = true →
      (item.title = none ∧ item.dataTab = none) ∨
      (∀ q, item.parentID = some q → S q = true)) :
    ∀ (fuel : Nat) (p : String), S p = false →
      recurse_into_children d fuel p
        = recurse_into_children (d.filter fun e => !S e.1) fuel p := by
  intro fuel
  induction fuel with
  | zero => intro p _; rfl
  | succ f ih =>
    intro p hp
    simp only [recurse_into_children]
    have hdropnil : ∀ rec : String → List BNode, ∀ e ∈ d, S e.1 = true →
        recurseBody rec p e = [] := by
      intro rec e he hS
      unfold recurseBody
      by_cases hpar : e.2.parentID = some p
      · rcases hclosed e.1 e.2 (by simpa using he) hS with ⟨ht2, htab2⟩ | hq
        · rw [if_pos hpar, htab2, ht2]
        · have hfalse := hq p hpar
          rw [hp] at hfalse
          exact Bool.noConfusion hfalse
      · rw [if_neg hpar]
    have step1 : d.flatMap (recurseBody (recurse_into_children d f) p)
        = d.flatMap
            (recurseBody (recurse_into_children (d.filter fun e => !S e.1) f) p) := by
      apply List.flatMap_congr
      intro e he
      by_cases hS : S e.1 = true
      · rw [hdropnil _ e he hS, hdropnil _ e he hS]
      · rw [Bool.not_eq_true] at hS
        unfold recurseBody
        by_cases hpar : e.2.parentID = some p
        · rw [if_pos hpar, if_pos hpar]
          cases htab : e.2.dataTab with
          | some tab => rfl
          | none =>
            cases htitle : e.2.title with
            | some t => rw [ih e.1 hS]
            | none => rfl
        · rw [if_neg hpar, if_neg hpar]
    rw [step1]
    apply flatMap_filter_of_nil
    intro e he hg
    have hS : S e.1 = true := by
      revert hg
      cases S e.1 with
      | true => intro _; rfl
      | false => intro hg; exact Bool.noConfusion hg
    exact hdropnil _ e he hS

lemma recurse_erase_invisible (d1 d2 : List (String × Item)) (xid : String) (X : Item)
    (ht : X.title = none) (htab : X.dataTab = none) :
    ∀ (fuel : Nat) (p : String),
      recurse_into_children (d1 ++ (xid, X) :: d2) fuel p
        = recurse_into_children (d1 ++ d2) fuel p := by
  intro fuel
  induction fuel with
  | zero => intro p; rfl
  | succ f ih =>
    intro p
    simp only [recurse_into_children]
    rw [List.flatMap_append, List.flatMap_cons, List.flatMap_append]
    have hX : recurseBody (recurse_into_children (d1 ++ (xid, X) :: d2) f) p (xid, X)
        = [] := by
      unfold recurseBody
      by_cases hpar : (xid, X).2.parentID = some p
      · rw [if_pos hpar, htab, ht]
      · rw [if_neg hpar]
    have hcongr : ∀ l : List (String × Item),
        l.flatMap (recurseBody (recurse_into_children (d1 ++ (xid, X) :: d2) f) p)
          = l.flatMap (recurseBody (recurse_into_children (d1 ++ d2) f) p) := by
      intro l
      apply List.flatMap_congr
      intro e _
      unfold recurseBody
      by_cases hpar : e.2.parentID = some p
      · rw [if_pos hpar, if_pos hpar]
        cases htab2 : e.2.dataTab with
        | some tab => rfl
        | none =>
          cases htitle : e.2.title with
          | some t => rw [ih e.1]
          | none => rfl
      · rw [if_neg hpar, if_neg hpar]
    rw [hX, List.nil_append, hcongr d1, hcongr d2]

/-- The dropped item of the C5 counterexample: it has an id and nothing
else the builder looks at. -/
def cX : Item := ⟨some "x", none, none, none⟩

/-- The child of the dropped item in the C5 counterexample: a tab item
whose parent identifier is the id of cX. -/
def cY : Item := ⟨some "y", some "x", some "Y", some ⟨some ⟨none, some "u"⟩⟩⟩

/-- C5 counterexample: item cX has neither tab payload nor title and is
never materialized, and the parent chain of item cY passes through cX;
yet with a pinned space rooted at the identifier of cX the builder emits
cY, so the claimed unconditional cascading drop fails. -/
theorem c5_counterexample :
    cX.title = none ∧ cX.dataTab = none ∧ cY.parentID = some "x"
      ∧ convert_to_bookmarks ⟨[("x", "S")], []⟩ [Entry.dict cX, Entry.dict cY]
        = .ok ⟨[BNode.folder "S" [BNode.bookmark "Y" "u"]]⟩ :=
  ⟨rfl, rfl, rfl, rfl⟩

/-- C5 (corrected): an item with neither tab payload nor title is never
materialized anywhere (deleting it from the index leaves every children
computation unchanged), and the cascading drop of its descendants holds
provided no pinned space is rooted at the dropped identifier or at an
identifier whose parent chain passes through it: removing the dropped
item together with every item whose chain passes through it leaves the
emitted space folders unchanged. -/
theorem c5_cascading_drop (pinned : List (String × String))
    (d d1 d2 : List (String × Item)) (xid : String) (X : Item) (F : Nat)
    (hd : d = d1 ++ (xid, X) :: d2)
    (hnd : (d.map Prod.fst).Nodup)
    (ht : X.title = none) (htab : X.dataTab = none)
    (hroot : ∀ sn ∈ pinned, sn.1 ≠ xid ∧ chainPassesThrough d xid F sn.1 = false) :
    (∀ (fuel : Nat) (p : String),
        recurse_into_children d fuel p = recurse_into_children (d1 ++ d2) fuel p)
    ∧ ∀ fuel : Nat, buildSpaceFolders pinned d fuel
        = buildSpaceFolders pinned
            (d.filter fun e => !(e.1 == xid || chainPassesThrough d xid F e.1)) fuel := by
  have hXmem : (xid, X) ∈ d := by rw [hd]; simp
  constructor
  · rw [hd]
    exact recurse_erase_invisible d1 d2 xid X ht htab
  · intro fuel
    have hclosed : ∀ id item, (id, item) ∈ d →
        (id == xid || chainPassesThrough d xid F id) = true →
        (item.title = none ∧ item.dataTab = none) ∨
        (∀ q, item.parentID = some q →
          (q == xid || chainPassesThrough d xid F q) = true) := by
      intro id item hm hS
      rcases (by simpa using hS :
          id = xid ∨ chainPassesThrough d xid F id = true) with hid | hchain
      · subst hid
        have : item = X := mem_nodup_unique d id item X hnd hm hXmem
        subst this
        exact Or.inl ⟨ht, htab⟩
      · cases F with
        | zero => simp [chainPassesThrough] at hchain
        | succ f =>
          right
          intro q hq
          have hlk := lookup_of_mem_nodup d id item hnd hm
          rw [chainPassesThrough, hlk] at hchain
          dsimp only at hchain
          rw [hq] at hchain
          dsimp only at hchain
          rcases (by simpa using hchain :
              q = xid ∨ chainPassesThrough d xid f q = true) with h1 | h2
          · simp [h1]
          · rw [chainPassesThrough_mono d xid f q h2, Bool.or_true]
    have hS_root : ∀ sn ∈ pinned,
        (sn.1 == xid || chainPassesThrough d xid F sn.1) = false := by
      intro sn hsn
      rcases hroot sn hsn with ⟨h1, h2⟩
      rw [h2, Bool.or_false, beq_eq_false_iff_ne]
      exact h1
    unfold buildSpaceFolders
    apply List.map_congr_left
    intro sn hsn
    have := recurse_filter_dropped d
      (fun y => y == xid || chainPassesThrough d xid F y) hclosed fuel sn.1
      (hS_root sn hsn)
    rw [this]

/-- Witness for the amended C5 at a concrete index: dropping cX (whose
identifier is not a pinned root here) together with its descendant set
leaves both the children computation and the emitted space folders
unchanged. -/
theorem c5_cascading_drop_witness :
    recurse_into_children [("x", cX), ("y", cY)] 3 "r"
        = recurse_into_children [("y", cY)] 3 "r"
      ∧ buildSpaceFolders [("r", "S")] [("x", cX), ("y", cY)] 3
        = buildSpaceFolders [("r", "S")]
            (([("x", cX), ("y", cY)]).filter fun e =>
              !(e.1 == "x" || chainPassesThrough [("x", cX), ("y", cY)] "x" 2 e.1)) 3 := by
  have h := c5_cascading_drop [("r", "S")] [("x", cX), ("y", cY)] [] [("y", cY)]
    "x" cX 2 rfl (by decide) rfl rfl (by decide)
  exact ⟨h.1 3 "r", h.2 3⟩

end ArcExport
